import Mathlib

/-!
Verification development for the deterministic 2D simulation core of the
Game-Rust-ASM repository (fixed-point arithmetic, fixed-timestep scheduler,
narrow-phase collision, impulse resolution, semi-implicit Euler integration).

Embedding conventions, chosen once for the whole file:

* Rust `i32` values are integers `raw : ℤ` with the invariant
  `-2^31 ≤ raw < 2^31` carried in the structure; the explicitly wrapping
  operations of the source (`wrapping_add`, `wrapping_sub`, the `as i32`
  truncating casts) are modelled by `wrap32`, reduction into that range
  modulo `2^32`.  The Rust built-in negation operator `-x`, which is NOT
  overflow-wrapping (it is a checked operation that fails on overflow when
  overflow checks are enabled), is modelled by an `Option`-valued function
  returning `none` exactly on the overflowing input.
* Rust `i64` intermediates in `mul_full`/`div_full` never overflow 64 bits
  (their magnitudes are bounded by `2^62`), so they are modelled as exact
  integer arithmetic: `>> 16` (arithmetic shift) is `Int.fdiv · 65536` and
  `i64` division (truncation toward zero) is `Int.tdiv`.
* `f32`/`f64` arithmetic of the scheduler and the physics pipeline is
  modelled as exact arithmetic over `ℚ`.  Every concrete quantity the spec
  reasons about (radii, centers, impulses, the frame-skip cap) is exactly
  representable, and the claimed properties are properties of the exact
  algorithm (branch structure, update ordering, caps), not of rounding.
* The one genuinely real-valued operation, `f32::sqrt` inside
  `circle_vs_circle`, is modelled by passing the computed root `dist` as an
  explicit argument constrained by its defining property
  `0 ≤ dist ∧ dist * dist = dist_sq`.
-/

namespace GameEngine

/-- Reduction of an integer into the `i32` range, modulo `2^32`: the model of
Rust `wrapping_add`/`wrapping_sub` results and of the truncating `as i32`
cast applied to an `i64` intermediate. -/
def wrap32 (n : ℤ) : ℤ := (n + 2^31) % 2^32 - 2^31

theorem wrap32_lb (n : ℤ) : -(2^31) ≤ wrap32 n := by
  unfold wrap32; omega

theorem wrap32_ub (n : ℤ) : wrap32 n < 2^31 := by
  unfold wrap32; omega

theorem wrap32_eq_self {n : ℤ} (h1 : -(2^31) ≤ n) (h2 : n < 2^31) : wrap32 n = n := by
  unfold wrap32; omega

/-- `FixedPoint` (src/math/fixed_point.rs): a Q16.16 fixed-point number,
a transparent wrapper around one `i32`.  The `i32` range invariant is
carried as two propositional fields. -/
structure FixedPoint where
  raw : ℤ
  raw_lb : -(2^31) ≤ raw
  raw_ub : raw < 2^31
deriving DecidableEq

theorem FixedPoint.ext_raw {a b : FixedPoint} (h : a.raw = b.raw) : a = b := by
  cases a; cases b; simp_all

/-- Build a `FixedPoint` from an already-wrapped integer. -/
def FixedPoint.ofWrap (n : ℤ) : FixedPoint :=
  ⟨wrap32 n, wrap32_lb n, wrap32_ub n⟩

/-- `FixedPoint::ZERO`. -/
def FixedPoint.ZERO : FixedPoint := ⟨0, by norm_num, by norm_num⟩

/-- `FixedPoint::ONE` = raw `1 << 16`. -/
def FixedPoint.ONE : FixedPoint := ⟨65536, by norm_num, by norm_num⟩

/-- `impl Add for FixedPoint`: `self.0.wrapping_add(other.0)`. -/
def FixedPoint.add (a b : FixedPoint) : FixedPoint := .ofWrap (a.raw + b.raw)

/-- `impl Sub for FixedPoint`: `self.0.wrapping_sub(other.0)`. -/
def FixedPoint.sub (a b : FixedPoint) : FixedPoint := .ofWrap (a.raw - b.raw)

/-- `FixedPoint::mul_full`: `((self.0 as i64 * other.0 as i64) >> 16) as i32`.
The `i64` product has magnitude at most `2^62`, so the 64-bit intermediate is
exact; `>> 16` is an arithmetic shift, i.e. floor division by `2^16`; the
final `as i32` truncates, i.e. wraps.  `impl Mul` delegates here. -/
def FixedPoint.mul_full (a b : FixedPoint) : FixedPoint :=
  .ofWrap (Int.fdiv (a.raw * b.raw) 65536)

/-- `FixedPoint::div_full`: returns `ZERO` when the divisor is zero, else
`(((self.0 as i64) << 16) / other.0 as i64) as i32`.  The shifted numerator
has magnitude at most `2^47`, so the 64-bit intermediate is exact; `i64`
division truncates toward zero (`Int.tdiv`); the final `as i32` wraps.
`impl Div` delegates here. -/
def FixedPoint.div_full (a b : FixedPoint) : FixedPoint :=
  if b.raw = 0 then FixedPoint.ZERO
  else .ofWrap (Int.tdiv (a.raw * 65536) b.raw)

/-- `impl Neg for FixedPoint`: the source computes `-self.0` with the plain
(checked, non-wrapping) negation operator.  That operation overflows exactly
when `self.0 == i32::MIN`; with overflow checks enabled (debug and test
builds) it aborts there instead of producing a value, modelled as `none`. -/
def FixedPoint.negChecked (a : FixedPoint) : Option FixedPoint :=
  if h : a.raw = -(2^31) then none
  else some ⟨-a.raw, by have h1 := a.raw_ub; omega, by have h1 := a.raw_lb; omega⟩

/-- The `FixedPoint` of raw representation `i32::MIN`. -/
def FixedPoint.minValue : FixedPoint := ⟨-(2^31), by norm_num, by norm_num⟩

/-- `Vec2` (src/math/vec2.rs): a 2D vector of `f32` components, modelled over
`ℚ`. -/
structure Vec2 where
  x : ℚ
  y : ℚ
deriving DecidableEq

/-- `Vec2::ZERO`. -/
def Vec2.ZERO : Vec2 := ⟨0, 0⟩

/-- `Vec2::UP` = `(0.0, -1.0)` (screen coordinates, y grows downward). -/
def Vec2.UP : Vec2 := ⟨0, -1⟩

/-- `impl Add for Vec2`: componentwise. -/
def Vec2.add (a b : Vec2) : Vec2 := ⟨a.x + b.x, a.y + b.y⟩

/-- `impl Sub for Vec2`: componentwise. -/
def Vec2.sub (a b : Vec2) : Vec2 := ⟨a.x - b.x, a.y - b.y⟩

/-- `impl Mul<f32> for Vec2`: scaling. -/
def Vec2.smul (a : Vec2) (s : ℚ) : Vec2 := ⟨a.x * s, a.y * s⟩

/-- `impl Div<f32> for Vec2`: componentwise division by a scalar. -/
def Vec2.divScalar (a : Vec2) (s : ℚ) : Vec2 := ⟨a.x / s, a.y / s⟩

/-- `Vec2::dot`. -/
def Vec2.dot (a b : Vec2) : ℚ := a.x * b.x + a.y * b.y

/-- `Vec2::length_squared` = `self.dot(self)`. -/
def Vec2.length_squared (a : Vec2) : ℚ := a.dot a

/-- `Vec2::abs`: componentwise absolute value. -/
def Vec2.abs (a : Vec2) : Vec2 := ⟨|a.x|, |a.y|⟩

/-- `f32::signum` as used on the (possibly zero) center-difference
components in `aabb_vs_aabb`: `1.0` for positive or `+0.0`, `-1.0` for
negative.  The rational `0` models `+0.0`. -/
def rsignum (q : ℚ) : ℚ := if q < 0 then -1 else 1

/-- `Circle` collider (src/physics/collision.rs). -/
structure Circle where
  center : Vec2
  radius : ℚ
deriving DecidableEq

/-- `AABB` (src/physics/collision.rs): min/max corners. -/
structure AABB where
  min : Vec2
  max : Vec2
deriving DecidableEq

/-- `AABB::center` = `(min + max) * 0.5`. -/
def AABB.center (a : AABB) : Vec2 := (a.min.add a.max).smul (1/2)

/-- `AABB::half_extents` = `(max - min) * 0.5`. -/
def AABB.half_extents (a : AABB) : Vec2 := (a.max.sub a.min).smul (1/2)

/-- `Contact` (src/physics/mod.rs): indices of the two bodies, contact
normal, penetration depth, contact point. -/
structure Contact where
  body_a : ℕ
  body_b : ℕ
  normal : Vec2
  penetration : ℚ
  point : Vec2
deriving DecidableEq

/-- `Body` (src/physics/mod.rs): one point-mass participant. -/
structure Body where
  position : Vec2
  velocity : Vec2
  acceleration : Vec2
  mass : ℚ
  inv_mass : ℚ
  restitution : ℚ
  friction : ℚ
deriving DecidableEq

/-- `Body::default()`: unit mass at the origin, restitution 0.5,
friction 0.3. -/
def Body.default : Body :=
  ⟨Vec2.ZERO, Vec2.ZERO, Vec2.ZERO, 1, 1, 1/2, 3/10⟩

instance : Inhabited Body := ⟨Body.default⟩

/-- `Body::is_static` = `inv_mass == 0.0`. -/
def Body.is_static (b : Body) : Bool := b.inv_mass = 0

/-- `circle_vs_circle` (src/physics/collision.rs).  The source computes
`dist = dist_sq.sqrt()`; the root is passed here as the explicit argument
`dist`, constrained at the theorems by `0 ≤ dist ∧ dist * dist = dist_sq`.
The `None` branch and the `dist > 0.0` test translate directly. -/
def circle_vs_circle (a b : Circle) (dist : ℚ) : Option Contact :=
  let diff := b.center.sub a.center
  let dist_sq := diff.length_squared
  let radii_sum := a.radius + b.radius
  if radii_sum * radii_sum ≤ dist_sq then
    none
  else
    let normal := if 0 < dist then diff.divScalar dist else Vec2.UP
    some { body_a := 0, body_b := 0, normal := normal,
           penetration := radii_sum - dist,
           point := a.center.add (normal.smul a.radius) }

/-- The `overlap` local of `aabb_vs_aabb` (src/physics/collision.rs):
`a_half + b_half - diff.abs()` where `diff` is the center difference,
hoisted to a named definition so the theorems can speak about it. -/
def aabbOverlap (a b : AABB) : Vec2 :=
  (a.half_extents.add b.half_extents).sub ((b.center.sub a.center).abs)

/-- `aabb_vs_aabb` (src/physics/collision.rs): overlap along each axis from
center distance and summed half-extents; `None` when either overlap is
non-positive; otherwise the axis of strictly smaller overlap is the contact
axis (`overlap.x < overlap.y` selects X, so ties select Y). -/
def aabb_vs_aabb (a b : AABB) : Option Contact :=
  let a_half := a.half_extents
  let diff := b.center.sub a.center
  let overlap := aabbOverlap a b
  if overlap.x ≤ 0 ∨ overlap.y ≤ 0 then
    none
  else
    let np : Vec2 × ℚ :=
      if overlap.x < overlap.y then (⟨rsignum diff.x, 0⟩, overlap.x)
      else (⟨0, rsignum diff.y⟩, overlap.y)
    some { body_a := 0, body_b := 0, normal := np.1, penetration := np.2,
           point := a.center.add (np.1.smul (Min.min a_half.x a_half.y)) }

/-- Read-modify-write of one list entry, the model of a single Rust
`bodies[i].field op= value` statement (indices are in bounds in every use
below, so the default is never read). -/
def mapAt (bodies : List Body) (i : ℕ) (f : Body → Body) : List Body :=
  bodies.set i (f (bodies.getD i Body.default))

/-- The body of the `for contact in contacts` loop of `resolve_contacts`
(src/physics/collision.rs): skip static-static pairs, skip separating pairs,
else apply equal-and-opposite impulses of magnitude
`j = -(1+e) * vel_along_normal / (invMassA + invMassB)` and the positional
correction `penetration * 0.8 / (invMassA + invMassB)` along the normal.
The four sequential index assignments of the source are the four `mapAt`
steps, in the same order. -/
def resolveContact (bodies : List Body) (contact : Contact) : List Body :=
  let a := bodies.getD contact.body_a Body.default
  let b := bodies.getD contact.body_b Body.default
  if a.is_static ∧ b.is_static then bodies
  else
    let relative_vel := b.velocity.sub a.velocity
    let vel_along_normal := relative_vel.dot contact.normal
    if 0 < vel_along_normal then bodies
    else
      let e := Min.min a.restitution b.restitution
      let j := -(1 + e) * vel_along_normal / (a.inv_mass + b.inv_mass)
      let impulse := contact.normal.smul j
      let correction :=
        contact.normal.smul (contact.penetration * (4/5) / (a.inv_mass + b.inv_mass))
      let step1 := mapAt bodies contact.body_a
        (fun bd => { bd with velocity := bd.velocity.sub (impulse.smul a.inv_mass) })
      let step2 := mapAt step1 contact.body_b
        (fun bd => { bd with velocity := bd.velocity.add (impulse.smul b.inv_mass) })
      let step3 := mapAt step2 contact.body_a
        (fun bd => { bd with position := bd.position.sub (correction.smul a.inv_mass) })
      mapAt step3 contact.body_b
        (fun bd => { bd with position := bd.position.add (correction.smul b.inv_mass) })

/-- `resolve_contacts` (src/physics/collision.rs): the loop over the contact
list. -/
def resolve_contacts (bodies : List Body) (contacts : List Contact) : List Body :=
  contacts.foldl resolveContact bodies

/-- The loop body of `integrate_bodies_rust` (src/physics/integration.rs):
skip static bodies; otherwise semi-implicit Euler — velocity is updated by
`acceleration * dt` first, position by the updated velocity times `dt`, and
acceleration is cleared afterwards. -/
def integrateBody (b : Body) (dt : ℚ) : Body :=
  if b.is_static then b
  else
    let v := b.velocity.add (b.acceleration.smul dt)
    { b with velocity := v,
             position := b.position.add (v.smul dt),
             acceleration := ⟨0, 0⟩ }

/-- `integrate_bodies_rust` (src/physics/integration.rs): integrate every
body of the slice in place. -/
def integrate_bodies_rust (bodies : List Body) (dt : ℚ) : List Body :=
  bodies.map (fun b => integrateBody b dt)

/-- The gravity-application loop at the top of each sub-step of
`PhysicsWorld::step` (src/physics/mod.rs): every non-static body's
acceleration is overwritten with the configured gravity. -/
def applyGravity (g : Vec2) (b : Body) : Body :=
  if b.is_static then b else { b with acceleration := g }

/-- One gravity-then-integrate sub-step acting on a single body, as
`PhysicsWorld::step` performs before collision handling. -/
def gravityStep (g : Vec2) (dt : ℚ) (b : Body) : Body :=
  integrateBody (applyGravity g b) dt

/-- `EngineConfig` (src/lib.rs), restricted to the fields the scheduler
reads; the presentation-only fields (title, window size, vsync) enter none
of the modelled functions. -/
structure EngineConfig where
  fixed_timestep : ℚ
  max_frame_skip : ℕ
deriving DecidableEq

/-- `FrameTick` (src/core/game_loop.rs): the per-frame scheduler report. -/
structure FrameTick where
  frame : ℕ
  tick : ℕ
  fixed_updates : ℕ
  delta : ℚ
  fixed_dt : ℚ
  interp : ℚ
deriving DecidableEq

/-- `GameLoop` state (src/core/game_loop.rs).  The timer and `last_time`
are the wall-clock source; `tick` below consumes the observed elapsed delta
directly as an argument. -/
structure GameLoop where
  accumulator : ℚ
  fixed_dt : ℚ
  max_frame_skip : ℕ
  frame : ℕ
  tick : ℕ
deriving DecidableEq

/-- `GameLoop::new` (src/core/game_loop.rs): copies the configured timestep
and frame-skip cap, zero counters.  No validation is performed on the
configuration. -/
def GameLoop.new (config : EngineConfig) : GameLoop :=
  { accumulator := 0, fixed_dt := config.fixed_timestep,
    max_frame_skip := config.max_frame_skip, frame := 0, tick := 0 }

/-- The `while self.accumulator >= self.fixed_dt && updates < self.max_frame_skip`
loop of `GameLoop::tick`, structured over the fuel `cap - updates` (the
remaining number of permitted updates).  Returns the final accumulator and
the number of updates performed. -/
def consumeSteps (fixed_dt : ℚ) : ℚ → ℕ → ℚ × ℕ
  | acc, 0 => (acc, 0)
  | acc, remaining + 1 =>
    if fixed_dt ≤ acc then
      let r := consumeSteps fixed_dt (acc - fixed_dt) remaining
      (r.1, r.2 + 1)
    else (acc, 0)

/-- `GameLoop::tick` (src/core/game_loop.rs) with the observed wall-clock
delta (in seconds) injected as `delta_s`: add the delta to the accumulator,
drain it in fixed steps up to the frame-skip cap, bump counters, and report
the `FrameTick`. -/
def GameLoop.tickFrame (gl : GameLoop) (delta_s : ℚ) : GameLoop × FrameTick :=
  let acc := gl.accumulator + delta_s
  let r := consumeSteps gl.fixed_dt acc gl.max_frame_skip
  let gl2 : GameLoop :=
    { gl with accumulator := r.1, tick := gl.tick + r.2, frame := gl.frame + 1 }
  (gl2,
   { frame := gl2.frame, tick := gl2.tick, fixed_updates := r.2,
     delta := delta_s, fixed_dt := gl.fixed_dt,
     interp := r.1 / gl.fixed_dt })

/-- `PhysicsConfig` (src/physics/mod.rs): gravity vector, solver iteration
count, sub-step count.  These are all of its fields: it carries no
fixed-timestep field. -/
structure PhysicsConfig where
  gravity : Vec2
  iterations : ℕ
  substeps : ℕ
deriving DecidableEq

/-- `PhysicsConfig::default()`. -/
def PhysicsConfig.default : PhysicsConfig := ⟨⟨0, 980⟩, 8, 1⟩

/-- `PhysicsWorld` (src/physics/mod.rs): configuration, body list, scratch
contact list. -/
structure PhysicsWorld where
  config : PhysicsConfig
  bodies : List Body
  contacts : List Contact

/-- `PhysicsWorld::with_config` (src/physics/mod.rs): stores the given
configuration unchanged with empty body and contact lists; it performs no
validation and cannot fail. -/
def PhysicsWorld.with_config (config : PhysicsConfig) : PhysicsWorld :=
  { config := config, bodies := [], contacts := [] }

/-- The per-sub-step timestep computed on the first line of
`PhysicsWorld::step` (src/physics/mod.rs): `1.0 / 60.0 / substeps as f32` —
the frame duration is the hardcoded constant `1/60`. -/
def PhysicsWorld.stepDt (config : PhysicsConfig) : ℚ :=
  1 / 60 / (config.substeps : ℚ)

/-- The total simulated time one `PhysicsWorld::step` call advances: the
sub-step loop runs exactly `substeps` times, each sub-step integrating with
`stepDt`. -/
def PhysicsWorld.stepTimeAdvanced (config : PhysicsConfig) : ℚ :=
  (config.substeps : ℚ) * PhysicsWorld.stepDt config


/-! ## Claim theorems -/

/-- C6: for every `FixedPoint` value `x`, dividing `x` by the zero value
(via `div_full`, to which the `Div` operator delegates) returns the zero
value rather than failing: `div_full` is total and its divisor-zero branch
yields `ZERO`. -/
theorem C6_div_by_zero_is_zero (x : FixedPoint) :
    x.div_full FixedPoint.ZERO = FixedPoint.ZERO := rfl

/-- C7: the claim that every `FixedPoint` operation wraps on overflow and
never fails does not hold of the `Neg` implementation: it computes
`-self.0` with the plain (checked, non-wrapping) negation operator, which
overflows exactly at raw representation `i32::MIN`; there, with overflow
checks enabled, it aborts instead of producing the wrapped value.  The
other four operations are total by construction (`add`, `sub`, `mul_full`
and `div_full` return a `FixedPoint` for all inputs). -/
theorem C7_neg_overflows_at_i32_min :
    FixedPoint.negChecked FixedPoint.minValue = none ∧
    ∀ a : FixedPoint, FixedPoint.negChecked a = none ↔ a.raw = -(2^31) := by
  constructor
  · rfl
  · intro a
    unfold FixedPoint.negChecked
    split <;> simp_all <;> omega

/-- C8: for all `FixedPoint` values `a`, `b`, the wrapping arithmetic
satisfies `(a + b) - b = a`, and multiplication by `ONE` is exact:
`a.mul_full ONE = a`. -/
theorem C8_add_sub_cancel_mul_one (a b : FixedPoint) :
    (a.add b).sub b = a ∧ a.mul_full FixedPoint.ONE = a := by
  constructor
  · apply FixedPoint.ext_raw
    show wrap32 (wrap32 (a.raw + b.raw) - b.raw) = a.raw
    have h1 := a.raw_lb
    have h2 := a.raw_ub
    unfold wrap32
    omega
  · apply FixedPoint.ext_raw
    show wrap32 (Int.fdiv (a.raw * 65536) 65536) = a.raw
    rw [Int.mul_fdiv_cancel a.raw (by norm_num : (65536 : ℤ) ≠ 0)]
    exact wrap32_eq_self a.raw_lb a.raw_ub

theorem consumeSteps_le (fixed_dt : ℚ) :
    ∀ (acc : ℚ) (fuel : ℕ), (consumeSteps fixed_dt acc fuel).2 ≤ fuel := by
  intro acc fuel
  induction fuel generalizing acc with
  | zero => simp [consumeSteps]
  | succ k ih =>
    unfold consumeSteps
    split
    · exact Nat.succ_le_succ (ih _)
    · exact Nat.zero_le _

/-- C1: every `GameLoop::tick` reports at most `max_frame_skip` fixed
updates, and in particular with `fixed_dt = 1/60` and `max_frame_skip = 5`
a single tick observing an elapsed delta of exactly 10 seconds reports
exactly 5 fixed updates, never 600. -/
theorem C1_fixed_updates_capped :
    (∀ (gl : GameLoop) (delta_s : ℚ),
        ((gl.tickFrame delta_s).2).fixed_updates ≤ gl.max_frame_skip) ∧
    ((GameLoop.new ⟨1/60, 5⟩).tickFrame 10).2.fixed_updates = 5 := by
  constructor
  · intro gl delta_s
    exact consumeSteps_le gl.fixed_dt (gl.accumulator + delta_s) gl.max_frame_skip
  · norm_num [GameLoop.tickFrame, GameLoop.new, consumeSteps]

/-- C9 counterexample: constructing the scheduler with a zero or negative
fixed timestep is NOT rejected — `GameLoop::new` is a total constructor
that returns a `GameLoop` storing the malformed timestep unchanged (and
`PhysicsWorld::with_config` likewise stores any configuration), so no hard
error is surfaced at construction time. -/
theorem C9_counterexample_no_rejection :
    GameLoop.new ⟨0, 5⟩ = ⟨0, 0, 5, 0, 0⟩ ∧
    GameLoop.new ⟨-(1/100), 5⟩ = ⟨0, -(1/100), 5, 0, 0⟩ ∧
    (PhysicsWorld.with_config PhysicsConfig.default).config = PhysicsConfig.default :=
  ⟨rfl, rfl, rfl⟩

/-- C9 (amended): construction performs no validation: `GameLoop::new`
accepts every configuration — including a zero or negative fixed
timestep — and stores it as-is, and `PhysicsWorld::with_config` accepts
and stores every physics configuration; neither can fail. -/
theorem C9_construction_never_rejects (c : EngineConfig) (pc : PhysicsConfig) :
    GameLoop.new c = ⟨0, c.fixed_timestep, c.max_frame_skip, 0, 0⟩ ∧
    PhysicsWorld.with_config pc = ⟨pc, [], []⟩ :=
  ⟨rfl, rfl⟩

/-- C10 counterexample: a `PhysicsWorld` constructed with `substeps = 0`
runs zero sub-step iterations in `step()`, so a step advances no simulated
time at all, not `1/60` of a second. -/
theorem C10_counterexample_zero_substeps :
    PhysicsWorld.stepTimeAdvanced ⟨⟨0, 980⟩, 8, 0⟩ = 0 ∧ (0 : ℚ) ≠ 1/60 := by
  constructor
  · norm_num [PhysicsWorld.stepTimeAdvanced, PhysicsWorld.stepDt]
  · norm_num

/-- C10 (amended): for every configuration with a nonzero sub-step count,
one `step()` call advances exactly `1/60` second of simulated time in
total, via a per-sub-step dt of `(1/60)/substeps`; the frame duration is
the hardcoded constant `1/60`, and no configuration field other than
`substeps` enters the dt — `PhysicsConfig` carries no fixed-timestep
field, so in particular `EngineConfig.fixed_timestep` cannot change it. -/
theorem C10_step_advances_one_sixtieth (c : PhysicsConfig) (h : c.substeps ≠ 0) :
    PhysicsWorld.stepTimeAdvanced c = 1/60 ∧
    PhysicsWorld.stepDt c = 1 / 60 / (c.substeps : ℚ) ∧
    (∀ (g : Vec2) (i : ℕ), PhysicsWorld.stepDt ⟨g, i, c.substeps⟩ = PhysicsWorld.stepDt c) := by
  refine ⟨?_, rfl, fun g i => rfl⟩
  have hq : (c.substeps : ℚ) ≠ 0 := Nat.cast_ne_zero.mpr h
  unfold PhysicsWorld.stepTimeAdvanced PhysicsWorld.stepDt
  field_simp
  ring

/-- C10 witness: the amended statement instantiated at the default physics
configuration, whose sub-step count is 1. -/
theorem C10_witness :
    PhysicsConfig.default.substeps ≠ 0 ∧
    (PhysicsWorld.stepTimeAdvanced PhysicsConfig.default = 1/60 ∧
     PhysicsWorld.stepDt PhysicsConfig.default = 1 / 60 / (PhysicsConfig.default.substeps : ℚ) ∧
     (∀ (g : Vec2) (i : ℕ),
        PhysicsWorld.stepDt ⟨g, i, PhysicsConfig.default.substeps⟩ =
          PhysicsWorld.stepDt PhysicsConfig.default)) :=
  ⟨by decide, C10_step_advances_one_sixtieth PhysicsConfig.default (by decide)⟩

theorem Vec2.ext2 {a b : Vec2} (hx : a.x = b.x) (hy : a.y = b.y) : a = b := by
  cases a; cases b; simp_all

theorem gravityStep_dynamic (g : Vec2) (dt : ℚ) (b : Body) (h : b.inv_mass ≠ 0) :
    gravityStep g dt b =
      { b with velocity := b.velocity.add (g.smul dt),
               position := b.position.add ((b.velocity.add (g.smul dt)).smul dt),
               acceleration := ⟨0, 0⟩ } := by
  unfold gravityStep applyGravity integrateBody Body.is_static
  simp [h]

theorem gravitySteps_closed_form (g : Vec2) (dt : ℚ) (b : Body)
    (hdyn : b.inv_mass ≠ 0) (hv : b.velocity = Vec2.ZERO) :
    ∀ n : ℕ,
      ((gravityStep g dt)^[n] b).inv_mass = b.inv_mass ∧
      ((gravityStep g dt)^[n] b).velocity = g.smul ((n : ℚ) * dt) ∧
      ((gravityStep g dt)^[n] b).position =
        b.position.add (g.smul (dt * dt * ∑ k ∈ Finset.range n, ((k : ℚ) + 1))) := by
  intro n
  induction n with
  | zero =>
    refine ⟨rfl, ?_, ?_⟩
    · rw [Function.iterate_zero_apply, hv]
      apply Vec2.ext2 <;> simp [Vec2.ZERO, Vec2.smul]
    · rw [Function.iterate_zero_apply]
      apply Vec2.ext2 <;> simp [Vec2.add, Vec2.smul]
  | succ n ih =>
    obtain ⟨ihm, ihv, ihp⟩ := ih
    rw [Function.iterate_succ_apply']
    rw [gravityStep_dynamic g dt _ (by rw [ihm]; exact hdyn)]
    refine ⟨ihm, ?_, ?_⟩
    · rw [ihv]
      apply Vec2.ext2 <;>
        · simp only [Vec2.add, Vec2.smul]
          push_cast
          ring
    · rw [ihp, ihv]
      apply Vec2.ext2 <;>
        · simp only [Vec2.add, Vec2.smul, Finset.sum_range_succ]
          push_cast
          ring

/-- C2: `integrate_bodies_rust` maps the semi-implicit Euler update over
the bodies (velocity first, then position by the updated velocity, then
acceleration cleared; static bodies untouched), and consequently a single
dynamic body starting at rest under constant acceleration `g`, stepped `n`
times with timestep `dt` and no collisions, has velocity exactly
`g * (n*dt)` and position offset exactly the discrete accumulated sum
`g * (dt^2 * (1 + 2 + ... + n))`. -/
theorem C2_semi_implicit_euler (g : Vec2) (dt : ℚ) (b : Body) (n : ℕ)
    (hdyn : b.inv_mass ≠ 0) (hv : b.velocity = Vec2.ZERO) :
    (∀ (bodies : List Body),
        integrate_bodies_rust bodies dt = bodies.map (fun bd => integrateBody bd dt)) ∧
    (∀ bd : Body, bd.inv_mass ≠ 0 →
        integrateBody bd dt =
          { bd with velocity := bd.velocity.add (bd.acceleration.smul dt),
                    position :=
                      bd.position.add ((bd.velocity.add (bd.acceleration.smul dt)).smul dt),
                    acceleration := ⟨0, 0⟩ }) ∧
    ((gravityStep g dt)^[n] b).velocity = g.smul ((n : ℚ) * dt) ∧
    ((gravityStep g dt)^[n] b).position =
      b.position.add (g.smul (dt * dt * ∑ k ∈ Finset.range n, ((k : ℚ) + 1))) := by
  refine ⟨fun bodies => rfl, fun bd hbd => ?_, ?_, ?_⟩
  · unfold integrateBody Body.is_static
    simp [hbd]
  · exact (gravitySteps_closed_form g dt b hdyn hv n).2.1
  · exact (gravitySteps_closed_form g dt b hdyn hv n).2.2

/-- C2 witness: three steps of duration `1/2` under gravity `(0, 10)` on a
unit-mass body at rest at the origin: velocity `(0, 15)` and position
`(0, 15)` (the discrete sum `10 * (1/4) * (1+2+3)`). -/
theorem C2_witness :
    (Body.default.inv_mass ≠ 0 ∧ Body.default.velocity = Vec2.ZERO) ∧
    ((∀ (bodies : List Body),
        integrate_bodies_rust bodies (1/2) =
          bodies.map (fun bd => integrateBody bd (1/2))) ∧
     (∀ bd : Body, bd.inv_mass ≠ 0 →
        integrateBody bd (1/2) =
          { bd with velocity := bd.velocity.add (bd.acceleration.smul (1/2)),
                    position :=
                      bd.position.add
                        ((bd.velocity.add (bd.acceleration.smul (1/2))).smul (1/2)),
                    acceleration := ⟨0, 0⟩ }) ∧
     ((gravityStep ⟨0, 10⟩ (1/2))^[3] Body.default).velocity =
        Vec2.smul ⟨0, 10⟩ ((3 : ℚ) * (1/2)) ∧
     ((gravityStep ⟨0, 10⟩ (1/2))^[3] Body.default).position =
        Body.default.position.add
          (Vec2.smul ⟨0, 10⟩ ((1/2) * (1/2) * ∑ k ∈ Finset.range 3, ((k : ℚ) + 1)))) :=
  ⟨⟨by norm_num [Body.default], rfl⟩,
   C2_semi_implicit_euler ⟨0, 10⟩ (1/2) Body.default 3
     (by norm_num [Body.default]) rfl⟩

/-- Test fixture for the resolver claims: a unit-mass body with
restitution 1 moving at velocity `(v, 0)`. -/
def headOnA (v : ℚ) (p : Vec2) : Body :=
  { position := p, velocity := ⟨v, 0⟩, acceleration := Vec2.ZERO,
    mass := 1, inv_mass := 1, restitution := 1, friction := 3/10 }

/-- Test fixture: the mirror unit-mass body moving at `(-v, 0)`. -/
def headOnB (v : ℚ) (p : Vec2) : Body :=
  { position := p, velocity := ⟨-v, 0⟩, acceleration := Vec2.ZERO,
    mass := 1, inv_mass := 1, restitution := 1, friction := 3/10 }

/-- Test fixture: the contact between the two head-on bodies, with normal
`(1, 0)` pointing from body 0 toward body 1. -/
def headOnContact (pen : ℚ) (pt : Vec2) : Contact :=
  { body_a := 0, body_b := 1, normal := ⟨1, 0⟩, penetration := pen, point := pt }

/-- C3: two unit-mass bodies with restitution 1 approaching head-on along
the contact normal at equal and opposite speed `v` exit one application of
`resolve_contacts` with their velocities negated, and the total momentum
(mass times velocity, summed) is unchanged. -/
theorem C3_elastic_head_on (v : ℚ) (pA pB : Vec2) (pen : ℚ) (pt : Vec2) (hv : 0 < v) :
    ((resolve_contacts [headOnA v pA, headOnB v pB] [headOnContact pen pt]).getD 0
        Body.default).velocity = ⟨-v, 0⟩ ∧
    ((resolve_contacts [headOnA v pA, headOnB v pB] [headOnContact pen pt]).getD 1
        Body.default).velocity = ⟨v, 0⟩ ∧
    (((resolve_contacts [headOnA v pA, headOnB v pB] [headOnContact pen pt]).getD 0
          Body.default).velocity.smul
        ((resolve_contacts [headOnA v pA, headOnB v pB] [headOnContact pen pt]).getD 0
          Body.default).mass).add
      (((resolve_contacts [headOnA v pA, headOnB v pB] [headOnContact pen pt]).getD 1
          Body.default).velocity.smul
        ((resolve_contacts [headOnA v pA, headOnB v pB] [headOnContact pen pt]).getD 1
          Body.default).mass) =
    ((headOnA v pA).velocity.smul (headOnA v pA).mass).add
      ((headOnB v pB).velocity.smul (headOnB v pB).mass) := by
  simp only [resolve_contacts, List.foldl, resolveContact, headOnA, headOnB, headOnContact,
    Body.is_static, mapAt, List.getD, List.set, List.get?_cons_zero, List.get?_cons_succ,
    Option.getD_some, Vec2.sub, Vec2.dot, Vec2.add, Vec2.smul,
    Vec2.ZERO, decide_eq_true_eq]
  split_ifs with h1 h2
  · exact absurd h1 (by norm_num)
  · exact absurd h2 (by nlinarith)
  · refine ⟨?_, ?_, ?_⟩ <;> apply Vec2.ext2 <;> simp <;> ring

/-- C3 witness: the elastic head-on bounce at speed 1, bodies at `(0,0)`
and `(2,0)` with penetration `1/2`. -/
theorem C3_witness :
    (0 : ℚ) < 1 ∧
    (((resolve_contacts [headOnA 1 ⟨0, 0⟩, headOnB 1 ⟨2, 0⟩] [headOnContact (1/2) ⟨1, 0⟩]).getD 0
         Body.default).velocity = ⟨-1, 0⟩ ∧
     ((resolve_contacts [headOnA 1 ⟨0, 0⟩, headOnB 1 ⟨2, 0⟩] [headOnContact (1/2) ⟨1, 0⟩]).getD 1
         Body.default).velocity = ⟨1, 0⟩ ∧
     (((resolve_contacts [headOnA 1 ⟨0, 0⟩, headOnB 1 ⟨2, 0⟩] [headOnContact (1/2) ⟨1, 0⟩]).getD 0
           Body.default).velocity.smul
         ((resolve_contacts [headOnA 1 ⟨0, 0⟩, headOnB 1 ⟨2, 0⟩] [headOnContact (1/2) ⟨1, 0⟩]).getD 0
           Body.default).mass).add
       (((resolve_contacts [headOnA 1 ⟨0, 0⟩, headOnB 1 ⟨2, 0⟩] [headOnContact (1/2) ⟨1, 0⟩]).getD 1
           Body.default).velocity.smul
         ((resolve_contacts [headOnA 1 ⟨0, 0⟩, headOnB 1 ⟨2, 0⟩] [headOnContact (1/2) ⟨1, 0⟩]).getD 1
           Body.default).mass) =
     ((headOnA 1 ⟨0, 0⟩).velocity.smul (headOnA 1 ⟨0, 0⟩).mass).add
       ((headOnB 1 ⟨2, 0⟩).velocity.smul (headOnB 1 ⟨2, 0⟩).mass)) :=
  ⟨by norm_num, C3_elastic_head_on 1 ⟨0, 0⟩ ⟨2, 0⟩ (1/2) ⟨1, 0⟩ (by norm_num)⟩

/-- C4: `circle_vs_circle` returns `None` exactly when the circles do not
overlap (squared center distance at least the squared radii sum); when it
returns a contact, the penetration is the radii sum minus the center
distance and the normal times the distance is the center difference (the
normal points from the first circle toward the second); and for circles of
radius 5 at `(0,0)` and `(8,0)` the contact has penetration 2 and normal
`(1,0)`. -/
theorem C4_circle_vs_circle (a b : Circle) (dist : ℚ) (h0 : 0 ≤ dist)
    (hsq : dist * dist = (b.center.sub a.center).length_squared) :
    (circle_vs_circle a b dist = none ↔
        (a.radius + b.radius) * (a.radius + b.radius) ≤
          (b.center.sub a.center).length_squared) ∧
    (∀ c : Contact, circle_vs_circle a b dist = some c →
        c.penetration = a.radius + b.radius - dist ∧
        (0 < dist → c.normal.smul dist = b.center.sub a.center)) ∧
    circle_vs_circle ⟨⟨0, 0⟩, 5⟩ ⟨⟨8, 0⟩, 5⟩ 8 =
      some { body_a := 0, body_b := 0, normal := ⟨1, 0⟩, penetration := 2, point := ⟨5, 0⟩ } := by
  refine ⟨?_, ?_, ?_⟩
  · unfold circle_vs_circle
    split_ifs with h
    · simpa using h
    · simpa using h
  · intro c hc
    simp only [circle_vs_circle] at hc
    split_ifs at hc with h hd
    · injection hc with hc2
      subst hc2
      refine ⟨rfl, fun hdist => ?_⟩
      have hdne : dist ≠ 0 := ne_of_gt hdist
      show ((b.center.sub a.center).divScalar dist).smul dist = b.center.sub a.center
      apply Vec2.ext2 <;> exact div_mul_cancel₀ _ hdne
    · injection hc with hc2
      subst hc2
      refine ⟨rfl, fun hdist => ?_⟩
      exact absurd hdist hd
  · unfold circle_vs_circle
    norm_num [Vec2.sub, Vec2.length_squared, Vec2.dot, Vec2.divScalar, Vec2.add, Vec2.smul]

/-- C4 witness: the theorem instantiated at the two radius-5 circles at
`(0,0)` and `(8,0)` with their exact center distance 8. -/
theorem C4_witness :
    ((0 : ℚ) ≤ 8 ∧
     (8 : ℚ) * 8 =
       ((Circle.mk ⟨8, 0⟩ 5).center.sub (Circle.mk ⟨0, 0⟩ 5).center).length_squared) ∧
    ((circle_vs_circle ⟨⟨0, 0⟩, 5⟩ ⟨⟨8, 0⟩, 5⟩ 8 = none ↔
        ((Circle.mk ⟨0, 0⟩ 5).radius + (Circle.mk ⟨8, 0⟩ 5).radius) *
            ((Circle.mk ⟨0, 0⟩ 5).radius + (Circle.mk ⟨8, 0⟩ 5).radius) ≤
          ((Circle.mk ⟨8, 0⟩ 5).center.sub (Circle.mk ⟨0, 0⟩ 5).center).length_squared) ∧
     (∀ c : Contact, circle_vs_circle ⟨⟨0, 0⟩, 5⟩ ⟨⟨8, 0⟩, 5⟩ 8 = some c →
        c.penetration =
            (Circle.mk ⟨0, 0⟩ 5).radius + (Circle.mk ⟨8, 0⟩ 5).radius - 8 ∧
        ((0 : ℚ) < 8 →
          c.normal.smul 8 =
            (Circle.mk ⟨8, 0⟩ 5).center.sub (Circle.mk ⟨0, 0⟩ 5).center)) ∧
     circle_vs_circle ⟨⟨0, 0⟩, 5⟩ ⟨⟨8, 0⟩, 5⟩ 8 =
       some { body_a := 0, body_b := 0, normal := ⟨1, 0⟩, penetration := 2,
              point := ⟨5, 0⟩ }) :=
  ⟨⟨by norm_num, by norm_num [Circle.mk, Vec2.sub, Vec2.length_squared, Vec2.dot]⟩,
   C4_circle_vs_circle ⟨⟨0, 0⟩, 5⟩ ⟨⟨8, 0⟩, 5⟩ 8 (by norm_num)
     (by norm_num [Circle.mk, Vec2.sub, Vec2.length_squared, Vec2.dot])⟩

/-- C5 counterexample: two AABBs whose X and Y overlaps are both exactly 1
(the unit-square pair `[0,2]x[0,2]` and `[1,3]x[1,3]`): the code resolves
the tie to the Y axis (normal `(0,1)`), not the X axis the claim
requires. -/
theorem C5_counterexample_tie_goes_to_y :
    aabbOverlap ⟨⟨0, 0⟩, ⟨2, 2⟩⟩ ⟨⟨1, 1⟩, ⟨3, 3⟩⟩ = ⟨1, 1⟩ ∧
    aabb_vs_aabb ⟨⟨0, 0⟩, ⟨2, 2⟩⟩ ⟨⟨1, 1⟩, ⟨3, 3⟩⟩ =
      some { body_a := 0, body_b := 0, normal := ⟨0, 1⟩, penetration := 1,
             point := ⟨1, 2⟩ } ∧
    (⟨0, 1⟩ : Vec2) ≠ ⟨1, 0⟩ := by
  refine ⟨?_, ?_, by simp⟩
  · norm_num [aabbOverlap, AABB.center, AABB.half_extents, Vec2.add, Vec2.sub, Vec2.smul,
      Vec2.abs]
  · norm_num [aabb_vs_aabb, aabbOverlap, AABB.center, AABB.half_extents, Vec2.add, Vec2.sub,
      Vec2.smul, Vec2.abs, rsignum]

/-- C5 (amended): for overlapping AABBs (both axis overlaps positive),
`aabb_vs_aabb` returns a contact whose penetration is the smaller of the
two axis overlaps; the X axis is the contact axis exactly when the X
overlap is strictly smaller, and otherwise — including exact ties — the Y
axis is chosen. -/
theorem C5_least_overlap_axis (a b : AABB)
    (hx : 0 < (aabbOverlap a b).x) (hy : 0 < (aabbOverlap a b).y) :
    ∃ c : Contact, aabb_vs_aabb a b = some c ∧
      c.penetration = Min.min (aabbOverlap a b).x (aabbOverlap a b).y ∧
      ((aabbOverlap a b).x < (aabbOverlap a b).y →
        c.normal = ⟨rsignum ((b.center.sub a.center).x), 0⟩) ∧
      ((aabbOverlap a b).y ≤ (aabbOverlap a b).x →
        c.normal = ⟨0, rsignum ((b.center.sub a.center).y)⟩) := by
  unfold aabb_vs_aabb
  rw [if_neg (by push_neg; exact ⟨hx, hy⟩)]
  split_ifs with hlt
  · refine ⟨_, rfl, ?_, fun h1 => rfl, fun h2 => absurd hlt (not_lt.mpr h2)⟩
    exact (min_eq_left hlt.le).symm
  · refine ⟨_, rfl, ?_, fun h1 => absurd h1 hlt, fun h2 => rfl⟩
    exact (min_eq_right (not_lt.mp hlt)).symm

/-- C5 witness: the amended statement at the pair `[0,2]x[0,2]` and
`[1,3]x[0,2]`, whose overlaps are 1 along X and 2 along Y. -/
theorem C5_witness :
    (0 < (aabbOverlap ⟨⟨0, 0⟩, ⟨2, 2⟩⟩ ⟨⟨1, 0⟩, ⟨3, 2⟩⟩).x ∧
     0 < (aabbOverlap ⟨⟨0, 0⟩, ⟨2, 2⟩⟩ ⟨⟨1, 0⟩, ⟨3, 2⟩⟩).y) ∧
    (∃ c : Contact, aabb_vs_aabb ⟨⟨0, 0⟩, ⟨2, 2⟩⟩ ⟨⟨1, 0⟩, ⟨3, 2⟩⟩ = some c ∧
      c.penetration =
        Min.min (aabbOverlap ⟨⟨0, 0⟩, ⟨2, 2⟩⟩ ⟨⟨1, 0⟩, ⟨3, 2⟩⟩).x
          (aabbOverlap ⟨⟨0, 0⟩, ⟨2, 2⟩⟩ ⟨⟨1, 0⟩, ⟨3, 2⟩⟩).y ∧
      ((aabbOverlap ⟨⟨0, 0⟩, ⟨2, 2⟩⟩ ⟨⟨1, 0⟩, ⟨3, 2⟩⟩).x <
          (aabbOverlap ⟨⟨0, 0⟩, ⟨2, 2⟩⟩ ⟨⟨1, 0⟩, ⟨3, 2⟩⟩).y →
        c.normal =
          ⟨rsignum (((AABB.mk ⟨1, 0⟩ ⟨3, 2⟩).center.sub
              (AABB.mk ⟨0, 0⟩ ⟨2, 2⟩).center).x), 0⟩) ∧
      ((aabbOverlap ⟨⟨0, 0⟩, ⟨2, 2⟩⟩ ⟨⟨1, 0⟩, ⟨3, 2⟩⟩).y ≤
          (aabbOverlap ⟨⟨0, 0⟩, ⟨2, 2⟩⟩ ⟨⟨1, 0⟩, ⟨3, 2⟩⟩).x →
        c.normal =
          ⟨0, rsignum (((AABB.mk ⟨1, 0⟩ ⟨3, 2⟩).center.sub
              (AABB.mk ⟨0, 0⟩ ⟨2, 2⟩).center).y)⟩)) :=
  ⟨⟨by norm_num [aabbOverlap, AABB.center, AABB.half_extents, Vec2.add, Vec2.sub, Vec2.smul,
        Vec2.abs],
    by norm_num [aabbOverlap, AABB.center, AABB.half_extents, Vec2.add, Vec2.sub, Vec2.smul,
        Vec2.abs]⟩,
   C5_least_overlap_axis ⟨⟨0, 0⟩, ⟨2, 2⟩⟩ ⟨⟨1, 0⟩, ⟨3, 2⟩⟩
     (by norm_num [aabbOverlap, AABB.center, AABB.half_extents, Vec2.add, Vec2.sub, Vec2.smul,
        Vec2.abs])
     (by norm_num [aabbOverlap, AABB.center, AABB.half_extents, Vec2.add, Vec2.sub, Vec2.smul,
        Vec2.abs])⟩

end GameEngine
